import Mathlib

/-
Verification of the FileFlow relay server (src/server) against its design
specification.  The Rust sources are shallowly embedded: the in-memory TTL
store (dao/memdb.rs) becomes an association list of string keys to cache
entries, the HTTP handlers (service/handler.rs) and the signaling registry
(service/signaling.rs) become pure functions threading the registries
explicitly.  Machine integers (u64/u32/usize) are modelled as Nat: every
arithmetic operation performed by the handlers on these values is bounded
well below 2^32 by the admission checks, so wrap-around is unreachable and
Nat is faithful; the one subtraction (`end.saturating_sub(start)`) is Rust
saturating subtraction, which coincides with Nat subtraction.
Monotonic instants (std::time::Instant) are modelled as Nat time stamps.
-/

set_option maxHeartbeats 1000000

/-- Entry stored in the in-memory TTL store: `CacheEntry<T>` of
src/server/src/dao/memdb.rs, with the absolute expiry instant as a Nat. -/
structure CacheEntry (T : Type) where
  value : T
  exp : Nat
deriving DecidableEq

/-- The keyed TTL store `MemDB<T>` of src/server/src/dao/memdb.rs.  The
`HashMap<String, CacheEntry<T>>` behind the RwLock is modelled as an
association list whose operations keep keys unique; `HashMap` iteration
order is arbitrary and nothing proved below depends on the list order. -/
abbrev MemDB (T : Type) := List (String × CacheEntry T)

/-- Lookup of a key: `HashMap::get` as used by `MemDB::get`, which returns a
cloned snapshot of the entry. -/
def MemDB.get {T : Type} (s : MemDB T) (k : String) : Option (CacheEntry T) :=
  match s with
  | [] => none
  | p :: rest => if p.1 = k then some p.2 else MemDB.get rest k

/-- `HashMap::insert` semantics: bind `k` to `e`, replacing (overwriting) any
previous binding for `k`. -/
def MemDB.setEntry {T : Type} (s : MemDB T) (k : String) (e : CacheEntry T) : MemDB T :=
  (k, e) :: s.filter (fun p => !(p.1 == k))

/-- `MemDB::insert`: computes `exp = now + ttl_secs` and stores the entry,
overwriting any existing binding.  In the source this always returns `Ok(())`. -/
def MemDB.insert {T : Type} (s : MemDB T) (k : String) (v : T) (ttl_secs now : Nat) : MemDB T :=
  MemDB.setEntry s k { value := v, exp := now + ttl_secs }

/-- `MemDB::update`: like insert but with a caller-supplied absolute expiry,
used by the handlers to preserve the original TTL.  Always returns `Ok(())`
in the source. -/
def MemDB.update {T : Type} (s : MemDB T) (k : String) (v : T) (exp : Nat) : MemDB T :=
  MemDB.setEntry s k { value := v, exp := exp }

/-- `MemDB::remove`: drop the binding for `k` (the handler ignores the
returned snapshot). -/
def MemDB.remove {T : Type} (s : MemDB T) (k : String) : MemDB T :=
  s.filter (fun p => !(p.1 == k))

/-- `MetaInfo` of src/server/src/dao/db.rs: the per-access-ID transfer
metadata. -/
structure MetaInfo where
  is_using : Bool
  used_by : String
  block_size : Nat
  file_name : String
  file_size : Nat
  done : Bool
deriving DecidableEq

/-- `MetaInfo::new`: fresh metadata with the 1 MiB default block size. -/
def MetaInfo.new (file_name : String) (file_size : Nat) : MetaInfo :=
  { is_using := false, used_by := "", block_size := 1024 * 1024,
    file_name := file_name, file_size := file_size, done := false }

/-- `FileBlock` of src/server/src/dao/db.rs; `data` is the byte payload
(`Bytes`), modelled as the list of byte values. -/
structure FileBlock where
  data : List Nat
  filename : String
  start : Nat
  «end» : Nat
  total : Nat
deriving DecidableEq

/-- `FileBlock::new`. -/
def FileBlock.new (data : List Nat) (filename : String) (start «end» total : Nat) : FileBlock :=
  { data := data, filename := filename, start := start, «end» := «end», total := total }

/-- The MetaRegistry: `META_INFO_DB`. -/
abbrev MetaRegistry := MemDB MetaInfo

/-- The BlockRegistry: `FILE_BLOCK_DB`. -/
abbrev BlockRegistry := MemDB FileBlock

/-- Runtime limits of service/handler.rs.  `read_env_u64`/`read_env_usize`
accept only strictly positive environment values and otherwise fall back to
the strictly positive defaults, so both fields are positive in every run. -/
structure Config where
  max_block_size : Nat
  max_blocks_per_file : Nat
deriving DecidableEq

/-- The default configuration (`MAX_BLOCK_SIZE = 1048576`,
`MAX_BLOCKS_PER_FILE = 1024`). -/
def defaultConfig : Config := { max_block_size := 1024 * 1024, max_blocks_per_file := 1024 }

/-- `max_total_size() = max_block_size() * max_blocks_per_file()`. -/
def Config.max_total_size (c : Config) : Nat := c.max_block_size * c.max_blocks_per_file

/-- `META_TTL_SECS`: TTL of metadata entries (24 h). -/
def META_TTL_SECS : Nat := 60 * 60 * 24

/-- `BLOCK_TTL_SECS`: TTL of file block entries (60 s). -/
def BLOCK_TTL_SECS : Nat := 60

/-- Rust `{:012}` formatting of an unsigned integer: decimal digits
zero-padded on the left to width 12. -/
def zeroPad12 (n : Nat) : String :=
  String.mk (List.replicate (12 - (toString n).length) '0') ++ toString n

/-- The block key scheme `format!("{}:{:012}", id, start)`, used verbatim by
`upload_file` (insert), `get_file` (fetch) and the detached removal task. -/
def fmtBlockKey (id : String) (start : Nat) : String :=
  id ++ ":" ++ zeroPad12 start

/-- `str::starts_with` on the character sequence, used by the block-count
admission check. -/
def strStartsWith (s p : String) : Bool :=
  List.isPrefixOf p.data s.data

/-- Outcome of the `get_id` handler.  The handler's 500 branch fires only
when `MemDB::insert` returns `Err`, which it never does, so it has no
constructor here. -/
inductive IdResult where
  | ok (id : String)
  | badRequest (msg : String)
deriving DecidableEq

/-- Outcome of the `upload_file` handler (HTTP code mirrors the
constructor: ok = 200, badRequest = 400, notFound = 404,
internalError = 500). -/
inductive UpResult where
  | ok
  | badRequest (msg : String)
  | notFound (msg : String)
  | internalError (msg : String)
deriving DecidableEq

/-- Outcome of the `get_file` handler.  `partialContent` is the HTTP 206
response carrying the `Content-Name` and `Content-Range` header values and
the block bytes as the body; `tooEarly` is the 425 returned once the
60-round fetch retry loop exhausts. -/
inductive DlResult where
  | badRequest (msg : String)
  | notFound (msg : String)
  | tooEarly
  | partialContent (contentName contentRange : String) (body : List Nat)
deriving DecidableEq

/-- Outcome of the `done` handler.  As with `get_id`, the 500 branch needs
`MemDB::update` to fail, which it never does. -/
inductive DoneResult where
  | ok
  | notFound
deriving DecidableEq

/-- The `get_id` handler (GET /id).  `generated` is the value produced by
`nanoid::generate()`; `file_name` is the query parameter after the
`unwrap_or` default; `file_size?` is `none` when the `file_size` parameter
is missing or fails to parse as u64 (both 400 in the source, with messages
"Missing Parameter"/"Invalid Parameter"; the former message stands for
both here).  On success the fresh `MetaInfo` is inserted with the 24 h TTL
by `MemDB::insert`, which overwrites any existing binding of the key. -/
def get_id (cfg : Config) (meta : MetaRegistry) (generated file_name : String)
    (file_size? : Option Nat) (now : Nat) : IdResult × MetaRegistry :=
  match file_size? with
  | none => (IdResult.badRequest "Missing Parameter: file_size", meta)
  | some file_size =>
    if file_size > cfg.max_total_size then
      (IdResult.badRequest "File exceeds maximum allowed size", meta)
    else
      (IdResult.ok generated,
       MemDB.insert meta generated (MetaInfo.new file_name file_size) META_TTL_SECS now)

/-- Claim phase of `get_file`, executed only when `start == 0`.  The Rust
retry loop around `MemDB::update` re-runs (up to 5 times, then 500) only
when the update returns `Err`; `MemDB::update` is infallible, so the loop
body runs exactly once and the 500 exit is unreachable.  Returns the early
response, if any, and the resulting MetaRegistry. -/
def claimPhase (meta : MetaRegistry) (id rid : String) : Option DlResult × MetaRegistry :=
  match MemDB.get meta id with
  | none => (some (DlResult.notFound "Access ID Not Found"), meta)
  | some ce =>
    if ce.value.is_using ∧ ce.value.used_by ≠ "" ∧ ce.value.used_by ≠ rid then
      (some (DlResult.badRequest "Bad Request"), meta)
    else if ¬ ce.value.is_using ∨ ce.value.used_by = "" ∨ ce.value.used_by ≠ rid then
      (none, MemDB.update meta id
        { ce.value with is_using := true, used_by := rid } ce.exp)
    else
      (none, meta)

/-- Verification and fetch phases of `get_file` (run on every call).  The
fetch retry loop re-reads an unchanged registry in this sequential model, so
absence of the block is the exhausted-retries 425.  The detached removal
task spawned after a hit is modelled as completing before the function
returns (the response itself never depends on it). -/
def verifyAndFetch (meta : MetaRegistry) (blocks : BlockRegistry) (id rid : String)
    (start : Nat) : DlResult × MetaRegistry × BlockRegistry :=
  match MemDB.get meta id with
  | none => (DlResult.notFound "Access ID Not Found", meta, blocks)
  | some ce =>
    if ce.value.used_by ≠ rid then
      (DlResult.badRequest "Wrong Receive ID", meta, blocks)
    else
      match MemDB.get blocks (fmtBlockKey id start) with
      | none => (DlResult.tooEarly, meta, blocks)
      | some fb =>
        if fb.value.start > start then
          (DlResult.badRequest "Wrong start position", meta, blocks)
        else
          (DlResult.partialContent fb.value.filename
            ("bytes " ++ toString fb.value.start ++ "-" ++ toString fb.value.«end»
              ++ "/" ++ toString fb.value.total)
            fb.value.data,
           meta, MemDB.remove blocks (fmtBlockKey id start))

/-- The `get_file` handler (GET /{id}/file?rid=&start=).  `rid?` is the
`rid` query parameter (`none` when absent); `start?` is the parsed `start`
parameter (`none` when absent or unparseable, both 400 in the source). -/
def get_file (meta : MetaRegistry) (blocks : BlockRegistry) (id : String)
    (rid? : Option String) (start? : Option Nat) : DlResult × MetaRegistry × BlockRegistry :=
  match rid? with
  | none => (DlResult.badRequest "Missing Parameter: rid", meta, blocks)
  | some rid =>
    match start? with
    | none => (DlResult.badRequest "Missing Parameter: start", meta, blocks)
    | some start =>
      if start = 0 then
        match claimPhase meta id rid with
        | (some r, m1) => (r, m1, blocks)
        | (none, m1) => verifyAndFetch m1 blocks id rid start
      else
        verifyAndFetch meta blocks id rid start

/-- The `done` handler (PUT /{id}/done): sets `done := true` and updates the
entry preserving its expiry. -/
def done (meta : MetaRegistry) (id : String) : DoneResult × MetaRegistry :=
  match MemDB.get meta id with
  | none => (DoneResult.notFound, meta)
  | some ce =>
    (DoneResult.ok, MemDB.update meta id { ce.value with done := true } ce.exp)

/-- `mark_receiver_state` of service/signaling.rs: adjusts the claim state of
the room's MetaInfo, preserving the expiry; a no-op when the room has no
metadata, and a complete no-op on release when `done` is set. -/
def mark_receiver_state (meta : MetaRegistry) (room_id : String) (is_using : Bool)
    (rid : Option String) : MetaRegistry :=
  match MemDB.get meta room_id with
  | none => meta
  | some ce =>
    if !is_using && ce.value.done then
      meta
    else
      let v1 := { ce.value with is_using := is_using }
      let v2 :=
        match rid with
        | some r => { v1 with used_by := r }
        | none => if !is_using then { v1 with used_by := "" } else v1
      MemDB.update meta room_id v2 ce.exp

/-- The `FileInfo` DTO of handler.rs, deserialized from the `info` part. -/
structure FileInfo where
  filename : String
  start : Nat
  «end» : Nat
  total : Nat
deriving DecidableEq

/-- One multipart field as `upload_file` observes it: the result of
`field.name()`, whether `field.bytes()` succeeds, the result of
`serde_json::from_slice::<FileInfo>` on those bytes (serde is external, so
its verdict on the raw bytes is carried alongside them), and the raw
bytes themselves. -/
structure MPField where
  name : Option String
  readOk : Bool
  infoJson : Option FileInfo
  bytes : List Nat
deriving DecidableEq

/-- Result of one `multipart.next_field()` call: a field, the end of the
body (`Ok(None)`), or a multipart read error (`Err`). -/
inductive MPNext where
  | field (f : MPField)
  | finished
  | err
deriving DecidableEq

/-- The two `next_field` results `upload_file` consumes, in order. -/
structure MultipartReq where
  first : MPNext
  second : MPNext
deriving DecidableEq

/-- The well-formed two-part upload body of the HTTP interface: an `info`
part whose bytes parse to the given `FileInfo`, then a `file` part with the
raw block bytes. -/
def mkMultipart (filename : String) (start «end» total : Nat) (bytes : List Nat) : MultipartReq :=
  { first := MPNext.field
      { name := some "info", readOk := true,
        infoJson := some { filename := filename, start := start, «end» := «end», total := total },
        bytes := [] },
    second := MPNext.field
      { name := some "file", readOk := true, infoJson := none, bytes := bytes } }

/-- Body of `upload_file`'s admission loop over `store.keys()`: counts keys
with the given prefix, stopping as soon as the count reaches the cap
(`if block_count >= max_blocks_per_file() { break; }` runs after every
key, matching or not). -/
def blockCountGo (pre : String) (cap : Nat) : List String → Nat → Nat
  | [], c => c
  | k :: rest, c =>
    let c' := if strStartsWith k pre then c + 1 else c
    if cap ≤ c' then c' else blockCountGo pre cap rest c'

/-- The admission count of `upload_file`, starting from zero. -/
def blockCountLoop (keys : List String) (pre : String) (cap : Nat) : Nat :=
  blockCountGo pre cap keys 0

/-- The `upload_file` handler (POST /{id}/upload).  Every validation runs
before the single `MemDB::insert`; the MetaRegistry is only read.  The
expected length check uses `end.saturating_sub(start).saturating_add(1)`,
which over Nat is `end - start + 1` (saturating_add cannot saturate at the
values admitted by the earlier checks). -/
def upload_file (cfg : Config) (meta : MetaRegistry) (blocks : BlockRegistry)
    (id : String) (mp : MultipartReq) (now : Nat) : UpResult × MetaRegistry × BlockRegistry :=
  match MemDB.get meta id with
  | none => (UpResult.notFound "Missing Access ID", meta, blocks)
  | some _ =>
    match mp.first with
    | MPNext.finished => (UpResult.badRequest "Bad Request: Missing info part", meta, blocks)
    | MPNext.err => (UpResult.internalError "Internal Server Error", meta, blocks)
    | MPNext.field f =>
      match f.name with
      | none => (UpResult.badRequest "Field name is missing", meta, blocks)
      | some nm =>
        if nm ≠ "info" then (UpResult.badRequest "First part must be info", meta, blocks)
        else if !f.readOk then (UpResult.internalError "Failed to read file data", meta, blocks)
        else
          match f.infoJson with
          | none => (UpResult.badRequest "Failed to parse info json", meta, blocks)
          | some info =>
            if info.«end» < info.start ∨ info.total = 0 ∨ info.total ≤ info.start then
              (UpResult.badRequest "Invalid file range", meta, blocks)
            else if info.total > cfg.max_total_size then
              (UpResult.badRequest "File exceeds maximum allowed size", meta, blocks)
            else
              match mp.second with
              | MPNext.finished => (UpResult.badRequest "Missing file part", meta, blocks)
              | MPNext.err => (UpResult.internalError "Internal Server Error", meta, blocks)
              | MPNext.field g =>
                match g.name with
                | none => (UpResult.badRequest "Field name is missing", meta, blocks)
                | some nm2 =>
                  if nm2 ≠ "file" then
                    (UpResult.badRequest "Second part must be file", meta, blocks)
                  else if !g.readOk then
                    (UpResult.internalError "Internal Server Error: Failed to read file data",
                     meta, blocks)
                  else if g.bytes.length > cfg.max_block_size then
                    (UpResult.badRequest "Block size exceeds maximum limitation", meta, blocks)
                  else if g.bytes.length ≠ info.«end» - info.start + 1 then
                    (UpResult.badRequest "Block size mismatch", meta, blocks)
                  else if cfg.max_blocks_per_file ≤
                      blockCountLoop (blocks.map (fun p => p.1)) (id ++ ":")
                        cfg.max_blocks_per_file then
                    (UpResult.badRequest
                      ("Maximum number of blocks per file reached ("
                        ++ toString cfg.max_blocks_per_file ++ ")"),
                     meta, blocks)
                  else
                    (UpResult.ok, meta,
                     MemDB.insert blocks (fmtBlockKey id info.start)
                       (FileBlock.new g.bytes info.filename info.start info.«end» info.total)
                       BLOCK_TTL_SECS now)

/-- A signaling peer of service/signaling.rs: the process-wide connection id
and the outbound frame sink, the sink type `S` kept abstract. -/
structure Peer (S : Type) where
  id : Nat
  tx : S
deriving DecidableEq

/-- A signaling room.  The struct holds exactly one optional sender slot and
one optional receiver slot, so a room can never contain two peers of the
same role. -/
structure Room (S : Type) where
  sender : Option (Peer S)
  receiver : Option (Peer S)
deriving DecidableEq

/-- `Room::is_empty`. -/
def Room.is_empty {S : Type} (r : Room S) : Bool :=
  r.sender.isNone && r.receiver.isNone

/-- The role requested on the signaling upgrade. -/
inductive Role where
  | sender
  | receiver
deriving DecidableEq

/-- The `SIGNAL_ROOMS` map, modelled as an association list with unique
keys. -/
abbrev Rooms (S : Type) := List (String × Room S)

/-- `HashMap::get` on the rooms map. -/
def Rooms.lookupRoom {S : Type} (rs : Rooms S) (k : String) : Option (Room S) :=
  match rs with
  | [] => none
  | p :: rest => if p.1 = k then some p.2 else Rooms.lookupRoom rest k

/-- `HashMap::insert` on the rooms map (replace any previous binding). -/
def Rooms.setRoom {S : Type} (rs : Rooms S) (k : String) (r : Room S) : Rooms S :=
  (k, r) :: rs.filter (fun p => !(p.1 == k))

/-- `HashMap::remove` on the rooms map. -/
def Rooms.removeRoom {S : Type} (rs : Rooms S) (k : String) : Rooms S :=
  rs.filter (fun p => !(p.1 == k))

/-- `register_peer`: `entry().or_default()` materialises an empty room when
the key is absent; a join into an occupied slot returns `false` with the
occupant kept, otherwise the peer takes the free slot and the call returns
`true`.  The write-back of the room mirrors the in-place mutation through
the `entry` reference. -/
def register_peer {S : Type} (rs : Rooms S) (room_id : String) (role : Role)
    (peer_id : Nat) (tx : S) : Bool × Rooms S :=
  let room := (Rooms.lookupRoom rs room_id).getD { sender := none, receiver := none }
  match role with
  | Role.sender =>
    if room.sender.isSome then (false, Rooms.setRoom rs room_id room)
    else (true, Rooms.setRoom rs room_id { room with sender := some { id := peer_id, tx := tx } })
  | Role.receiver =>
    if room.receiver.isSome then (false, Rooms.setRoom rs room_id room)
    else (true, Rooms.setRoom rs room_id { room with receiver := some { id := peer_id, tx := tx } })

/-- `unregister_peer`: clears the slot only when the current occupant's
connection id matches, then deletes the room if both slots are empty. -/
def unregister_peer {S : Type} (rs : Rooms S) (room_id : String) (role : Role)
    (peer_id : Nat) : Rooms S :=
  match Rooms.lookupRoom rs room_id with
  | none => rs
  | some room =>
    let room' :=
      match role with
      | Role.sender =>
        if room.sender.map (fun p => p.id) = some peer_id then
          { room with sender := none }
        else room
      | Role.receiver =>
        if room.receiver.map (fun p => p.id) = some peer_id then
          { room with receiver := none }
        else room
    if Room.is_empty room' then Rooms.removeRoom rs room_id
    else Rooms.setRoom rs room_id room'

/-- Claim-state health of one MetaInfo: `used_by` is empty exactly when
`is_using` is false. -/
def metaEntryOk (m : MetaInfo) : Bool :=
  (m.used_by == "") == !m.is_using

/-- The claim-state invariant over the whole MetaRegistry. -/
def metaInvB (s : MetaRegistry) : Bool :=
  s.all (fun p => metaEntryOk p.2.value)

/-- Frame view of a MetaRegistry entry: the expiry instant and the
creation-time fields that no mutation may touch. -/
def metaFrame (e : CacheEntry MetaInfo) : Nat × String × Nat × Nat :=
  (e.exp, e.value.file_name, e.value.file_size, e.value.block_size)

/-- Every room present in the registry has at least one occupied slot. -/
def roomsInvB {S : Type} (rs : Rooms S) : Bool :=
  rs.all (fun p => !Room.is_empty p.2)

/-! Store lemmas. -/

theorem MemDB.get_setEntry_self {T : Type} (s : MemDB T) (k : String) (e : CacheEntry T) :
    MemDB.get (MemDB.setEntry s k e) k = some e := by
  simp [MemDB.get, MemDB.setEntry]

theorem MemDB.get_filter_ne {T : Type} (s : MemDB T) (k k' : String) (h : k' ≠ k) :
    MemDB.get (s.filter (fun p => !(p.1 == k))) k' = MemDB.get s k' := by
  induction s with
  | nil => rfl
  | cons p rest ih =>
    by_cases hp : p.1 = k
    · rw [List.filter_cons_of_neg (by simp [hp])]
      rw [ih]
      have : p.1 ≠ k' := by
        rw [hp]
        exact fun hh => h hh.symm
      simp [MemDB.get, this]
  
    · rw [List.filter_cons_of_pos (by simp [hp])]
      by_cases hk' : p.1 = k'
      · simp [MemDB.get, hk']
      · simp [MemDB.get, hk', ih]

theorem MemDB.get_setEntry_ne {T : Type} (s : MemDB T) (k k' : String) (e : CacheEntry T)
    (h : k' ≠ k) :
    MemDB.get (MemDB.setEntry s k e) k' = MemDB.get s k' := by
  unfold MemDB.setEntry
  have : k ≠ k' := fun hh => h hh.symm
  simp [MemDB.get, this]
  exact MemDB.get_filter_ne s k k' h

theorem List.all_filter_of_all {α : Type} (l : List α) (p q : α → Bool)
    (h : l.all p = true) : (l.filter q).all p = true := by
  induction l with
  | nil => rfl
  | cons a as ih =>
    simp only [List.all_cons, Bool.and_eq_true] at h
    by_cases hq : q a = true
    · rw [List.filter_cons_of_pos hq]
      simp [List.all_cons, h.1, ih h.2]
    · rw [List.filter_cons_of_neg (by simpa using hq)]
      exact ih h.2

/-- C1: in `get_id`, a generated ID that collides with a live key is not
retried: the single `MemDB::insert` overwrites the existing MetaInfo.
Concretely, with a live transfer "abcde" -> (old.bin, 10 bytes, expiry 500),
a `get_id` call whose nanoid output is again "abcde" reports success and
replaces the live entry with the fresh metadata and a fresh 24 h expiry. -/
theorem get_id_collision_overwrites :
    (get_id defaultConfig [("abcde", { value := MetaInfo.new "old.bin" 10, exp := 500 })]
        "abcde" "new.bin" (some 7) 0).1 = IdResult.ok "abcde" ∧
    MemDB.get (get_id defaultConfig
        [("abcde", { value := MetaInfo.new "old.bin" 10, exp := 500 })]
        "abcde" "new.bin" (some 7) 0).2 "abcde" =
      some { value := MetaInfo.new "new.bin" 7, exp := 86400 } := by
  constructor
  · rfl
  · rfl

theorem verifyAndFetch_meta (m : MetaRegistry) (b : BlockRegistry) (id rid : String) (s : Nat) :
    (verifyAndFetch m b id rid s).2.1 = m := by
  unfold verifyAndFetch
  repeat' split
  all_goals rfl

theorem claimPhase_meta_cases (meta : MetaRegistry) (id rid : String) :
    (claimPhase meta id rid).2 = meta ∨
    ∃ ce, MemDB.get meta id = some ce ∧
      (claimPhase meta id rid).2 =
        MemDB.update meta id { ce.value with is_using := true, used_by := rid } ce.exp := by
  unfold claimPhase
  cases h : MemDB.get meta id with
  | none => exact Or.inl rfl
  | some ce =>
    dsimp only
    by_cases h1 : ce.value.is_using = true ∧ ce.value.used_by ≠ "" ∧ ce.value.used_by ≠ rid
    · rw [if_pos h1]
      exact Or.inl rfl
    · rw [if_neg h1]
      by_cases h2 : ¬ ce.value.is_using = true ∨ ce.value.used_by = "" ∨ ce.value.used_by ≠ rid
      · rw [if_pos h2]
        exact Or.inr ⟨ce, rfl, rfl⟩
      · rw [if_neg h2]
        exact Or.inl rfl

theorem get_file_meta_cases (meta : MetaRegistry) (blocks : BlockRegistry) (id : String)
    (rid? : Option String) (start? : Option Nat) :
    (get_file meta blocks id rid? start?).2.1 = meta ∨
    ∃ rid ce, rid? = some rid ∧ MemDB.get meta id = some ce ∧
      (get_file meta blocks id rid? start?).2.1 =
        MemDB.update meta id { ce.value with is_using := true, used_by := rid } ce.exp := by
  cases rid? with
  | none => exact Or.inl rfl
  | some rid =>
    cases start? with
    | none => exact Or.inl rfl
    | some start =>
      by_cases hs : start = 0
      · subst hs
        unfold get_file
        dsimp only
        rw [if_pos rfl]
        rcases hc : claimPhase meta id rid with ⟨o, m1⟩
        have hm1 : m1 = (claimPhase meta id rid).2 := by rw [hc]
        cases o with
        | some r =>
          rcases claimPhase_meta_cases meta id rid with h | ⟨ce, hget, h⟩
          · exact Or.inl (by simp [hm1, h])
          · exact Or.inr ⟨rid, ce, rfl, hget, by simp [hm1, h]⟩
        | none =>
          rcases claimPhase_meta_cases meta id rid with h | ⟨ce, hget, h⟩
          · refine Or.inl ?_
            simp only [verifyAndFetch_meta]
            rw [hm1, h]
          · refine Or.inr ⟨rid, ce, rfl, hget, ?_⟩
            simp only [verifyAndFetch_meta]
            rw [hm1, h]
      · refine Or.inl ?_
        unfold get_file
        dsimp only
        rw [if_neg hs]
        exact verifyAndFetch_meta meta blocks id rid start

theorem metaInv_get (s : MetaRegistry) (k : String) (e : CacheEntry MetaInfo)
    (hs : metaInvB s = true) (h : MemDB.get s k = some e) : metaEntryOk e.value = true := by
  induction s with
  | nil => simp [MemDB.get] at h
  | cons p rest ih =>
    simp only [metaInvB, List.all_cons, Bool.and_eq_true] at hs
    unfold MemDB.get at h
    by_cases hp : p.1 = k
    · rw [if_pos hp] at h
      have := Option.some.inj h
      subst this
      exact hs.1
    · rw [if_neg hp] at h
      exact ih hs.2 h

theorem metaInvB_setEntry (s : MetaRegistry) (k : String) (e : CacheEntry MetaInfo)
    (hs : metaInvB s = true) (he : metaEntryOk e.value = true) :
    metaInvB (MemDB.setEntry s k e) = true := by
  have h2 : (List.filter (fun p => !(p.1 == k)) s).all
      (fun p => metaEntryOk p.2.value) = true :=
    List.all_filter_of_all s _ _ hs
  simp [metaInvB, MemDB.setEntry, List.all_cons, he, h2]

/-- C2 (counterexample): the download-claim path accepts an empty `rid`
(only a missing `rid` parameter is rejected), and an empty-rid claim on an
open transfer leaves the entry with `is_using = true` and `used_by = ""`,
violating the claimed implication. -/
theorem empty_rid_claim_breaks_invariant :
    (MemDB.get (get_file [("abcde", { value := MetaInfo.new "a.bin" 10, exp := 100 })] []
        "abcde" (some "") (some 0)).2.1 "abcde").map
      (fun e => (e.value.is_using, e.value.used_by)) = some (true, "") := by
  rfl

/-- C2 (amended): provided the receiver identity involved is non-empty —
which the signaling upgrade enforces for its path, but the download-claim
path does not — every metadata mutation (download-block claim, mark_done,
signaling receiver join, signaling receiver leave) preserves the invariant
that `used_by` is empty exactly when `is_using` is false (in particular
`is_using = true` implies `used_by ≠ ""`). -/
theorem meta_claim_invariant_preserved (meta : MetaRegistry) (hinv : metaInvB meta = true) :
    (∀ (blocks : BlockRegistry) (id rid : String) (start? : Option Nat),
       rid ≠ "" → metaInvB (get_file meta blocks id (some rid) start?).2.1 = true) ∧
    (∀ id : String, metaInvB (done meta id).2 = true) ∧
    (∀ room_id rid : String, rid ≠ "" →
       metaInvB (mark_receiver_state meta room_id true (some rid)) = true) ∧
    (∀ room_id : String, metaInvB (mark_receiver_state meta room_id false none) = true) := by
  refine ⟨?_, ?_, ?_, ?_⟩
  · intro blocks id rid start? hrid
    rcases get_file_meta_cases meta blocks id (some rid) start? with h | ⟨rid', ce, hr, hget, h⟩
    · rw [h]; exact hinv
    · injection hr with hr
      subst hr
      rw [h]
      apply metaInvB_setEntry _ _ _ hinv
      have h0 : (rid == "") = false := by
        cases hb : (rid == "") with
        | true => exact absurd (by simpa using hb) hrid
        | false => rfl
      simp [metaEntryOk, h0]
  · intro id
    unfold done
    cases h : MemDB.get meta id with
    | none => exact hinv
    | some ce =>
      have hok := metaInv_get meta id ce hinv h
      apply metaInvB_setEntry _ _ _ hinv
      exact hok
  · intro room_id rid hrid
    unfold mark_receiver_state
    cases h : MemDB.get meta room_id with
    | none => exact hinv
    | some ce =>
      dsimp only
      apply metaInvB_setEntry _ _ _ hinv
      have h0 : (rid == "") = false := by
        cases hb : (rid == "") with
        | true => exact absurd (by simpa using hb) hrid
        | false => rfl
      simp [metaEntryOk, h0]
  · intro room_id
    unfold mark_receiver_state
    cases h : MemDB.get meta room_id with
    | none => exact hinv
    | some ce =>
      dsimp only
      by_cases hd : ce.value.done = true
      · simp only [hd, Bool.not_false, Bool.true_and, if_pos]
        exact hinv
      · have hd' : ce.value.done = false := by
          cases hdd : ce.value.done with
          | true => exact absurd hdd hd
          | false => rfl
        simp only [hd', Bool.not_false, Bool.true_and, Bool.false_eq_true, if_false]
        apply metaInvB_setEntry _ _ _ hinv
        rfl

theorem get_update_frame (s : MetaRegistry) (idk : String) (ce : CacheEntry MetaInfo)
    (v : MetaInfo) (hget : MemDB.get s idk = some ce)
    (hn : v.file_name = ce.value.file_name)
    (hsz : v.file_size = ce.value.file_size)
    (hb : v.block_size = ce.value.block_size) :
    ∀ k, (MemDB.get (MemDB.update s idk v ce.exp) k).map metaFrame
      = (MemDB.get s k).map metaFrame := by
  intro k
  unfold MemDB.update
  by_cases hk : k = idk
  · subst hk
    rw [MemDB.get_setEntry_self, hget]
    simp [metaFrame, hn, hsz, hb]
  · rw [MemDB.get_setEntry_ne _ _ _ _ hk]

/-- C7: every mutation of existing metadata — the download claim of
`get_file`, `done`, and `mark_receiver_state` on receiver join/leave —
passes the expiry instant and the creation-time fields (`file_name`,
`file_size`, `block_size`) through unchanged for every key, so the TTL is
never extended and identity fields are never modified after creation. -/
theorem meta_mutation_frame_preserved :
    (∀ (meta : MetaRegistry) (blocks : BlockRegistry) (id : String) (rid? : Option String)
       (start? : Option Nat) (k : String),
       (MemDB.get (get_file meta blocks id rid? start?).2.1 k).map metaFrame
         = (MemDB.get meta k).map metaFrame) ∧
    (∀ (meta : MetaRegistry) (id k : String),
       (MemDB.get (done meta id).2 k).map metaFrame = (MemDB.get meta k).map metaFrame) ∧
    (∀ (meta : MetaRegistry) (room_id : String) (u : Bool) (rid : Option String) (k : String),
       (MemDB.get (mark_receiver_state meta room_id u rid) k).map metaFrame
         = (MemDB.get meta k).map metaFrame) := by
  refine ⟨?_, ?_, ?_⟩
  · intro meta blocks id rid? start? k
    rcases get_file_meta_cases meta blocks id rid? start? with h | ⟨rid, ce, _, hget, h⟩
    · rw [h]
    · rw [h]
      exact get_update_frame meta id ce
        { ce.value with is_using := true, used_by := rid } hget rfl rfl rfl k
  · intro meta id k
    unfold done
    cases h : MemDB.get meta id with
    | none => rfl
    | some ce =>
      exact get_update_frame meta id ce
        { ce.value with done := true } h rfl rfl rfl k
  · intro meta room_id u rid k
    unfold mark_receiver_state
    cases h : MemDB.get meta room_id with
    | none => rfl
    | some ce =>
      dsimp only
      by_cases hc : (!u && ce.value.done) = true
      · rw [if_pos hc]
      · rw [if_neg hc]
        cases rid with
        | some r =>
          exact get_update_frame meta room_id ce
            { ce.value with is_using := u, used_by := r } h rfl rfl rfl k
        | none =>
          by_cases hu : (!u) = true
          · rw [if_pos hu]
            exact get_update_frame meta room_id ce
              { ce.value with is_using := u, used_by := "" } h rfl rfl rfl k
          · rw [if_neg hu]
            exact get_update_frame meta room_id ce
              { ce.value with is_using := u } h rfl rfl rfl k

theorem get_update_done (s : MetaRegistry) (idk : String) (ce : CacheEntry MetaInfo)
    (v : MetaInfo) (exp : Nat) (hget : MemDB.get s idk = some ce)
    (hd : ce.value.done = true → v.done = true) :
    ∀ k, (MemDB.get s k).map (fun e => e.value.done) = some true →
      (MemDB.get (MemDB.update s idk v exp) k).map (fun e => e.value.done) = some true := by
  intro k hk
  unfold MemDB.update
  by_cases hkk : k = idk
  · subst hkk
    rw [MemDB.get_setEntry_self]
    rw [hget] at hk
    have hce : ce.value.done = true := by simpa using hk
    simp [hd hce]
  · rw [MemDB.get_setEntry_ne _ _ _ _ hkk]
    exact hk

/-- C6: the `done` flag is monotonic under every metadata operation — the
download claim of `get_file`, the `done` handler itself, and
`mark_receiver_state` on receiver join/leave never reset a true `done` to
false; moreover a receiver disconnect (`mark_receiver_state` with
`is_using = false, rid = none`) on a completed transfer leaves the registry
entirely untouched. -/
theorem done_flag_monotonic :
    (∀ (meta : MetaRegistry) (blocks : BlockRegistry) (id : String) (rid? : Option String)
       (start? : Option Nat) (k : String),
       (MemDB.get meta k).map (fun e => e.value.done) = some true →
       (MemDB.get (get_file meta blocks id rid? start?).2.1 k).map
         (fun e => e.value.done) = some true) ∧
    (∀ (meta : MetaRegistry) (id k : String),
       (MemDB.get meta k).map (fun e => e.value.done) = some true →
       (MemDB.get (done meta id).2 k).map (fun e => e.value.done) = some true) ∧
    (∀ (meta : MetaRegistry) (room_id : String) (u : Bool) (rid : Option String) (k : String),
       (MemDB.get meta k).map (fun e => e.value.done) = some true →
       (MemDB.get (mark_receiver_state meta room_id u rid) k).map
         (fun e => e.value.done) = some true) ∧
    (∀ (meta : MetaRegistry) (room_id : String) (ce : CacheEntry MetaInfo),
       MemDB.get meta room_id = some ce → ce.value.done = true →
       mark_receiver_state meta room_id false none = meta) := by
  refine ⟨?_, ?_, ?_, ?_⟩
  · intro meta blocks id rid? start? k hk
    rcases get_file_meta_cases meta blocks id rid? start? with h | ⟨rid, ce, _, hget, h⟩
    · rw [h]; exact hk
    · rw [h]
      exact get_update_done meta id ce
        { ce.value with is_using := true, used_by := rid } ce.exp hget (fun hh => hh) k hk
  · intro meta id k hk
    unfold done
    cases h : MemDB.get meta id with
    | none => exact hk
    | some ce =>
      exact get_update_done meta id ce
        { ce.value with done := true } ce.exp h (fun _ => rfl) k hk
  · intro meta room_id u rid k hk
    unfold mark_receiver_state
    cases h : MemDB.get meta room_id with
    | none => exact hk
    | some ce =>
      dsimp only
      by_cases hc : (!u && ce.value.done) = true
      · rw [if_pos hc]; exact hk
      · rw [if_neg hc]
        cases rid with
        | some r =>
          exact get_update_done meta room_id ce
            { ce.value with is_using := u, used_by := r } ce.exp h (fun hh => hh) k hk
        | none =>
          by_cases hu : (!u) = true
          · rw [if_pos hu]
            exact get_update_done meta room_id ce
              { ce.value with is_using := u, used_by := "" } ce.exp h (fun hh => hh) k hk
          · rw [if_neg hu]
            exact get_update_done meta room_id ce
              { ce.value with is_using := u } ce.exp h (fun hh => hh) k hk
  · intro meta room_id ce hget hd
    unfold mark_receiver_state
    rw [hget]
    simp [hd]

/-- C4: a download claim (`start = 0`) by a receiver different from the one
holding the claim is rejected with HTTP 400 "Bad Request" and both
registries are returned exactly as they were: the first receiver's claim is
preserved. -/
theorem claim_conflict_rejected_unchanged (meta : MetaRegistry) (blocks : BlockRegistry)
    (id rid rid' : String) (ce : CacheEntry MetaInfo)
    (hget : MemDB.get meta id = some ce)
    (husing : ce.value.is_using = true)
    (hby : ce.value.used_by = rid')
    (hne : rid' ≠ "")
    (hdiff : rid ≠ rid') :
    get_file meta blocks id (some rid) (some 0) =
      (DlResult.badRequest "Bad Request", meta, blocks) := by
  have hcp : claimPhase meta id rid = (some (DlResult.badRequest "Bad Request"), meta) := by
    unfold claimPhase
    rw [hget]
    dsimp only
    rw [if_pos ⟨husing, by rw [hby]; exact hne, by rw [hby]; exact fun hh => hdiff hh.symm⟩]
  unfold get_file
  dsimp only
  rw [if_pos rfl, hcp]

/-- C5: a repeated download claim (`start = 0`) by the receiver already
holding the claim performs no metadata update: the MetaRegistry after the
call is exactly the one before, the state remaining Claimed(rid). -/
theorem claim_idempotent_same_rid (meta : MetaRegistry) (blocks : BlockRegistry)
    (id rid : String) (ce : CacheEntry MetaInfo)
    (hget : MemDB.get meta id = some ce)
    (husing : ce.value.is_using = true)
    (hby : ce.value.used_by = rid)
    (hrid : rid ≠ "") :
    (get_file meta blocks id (some rid) (some 0)).2.1 = meta := by
  have hcp : claimPhase meta id rid = (none, meta) := by
    unfold claimPhase
    rw [hget]
    dsimp only
    rw [if_neg (by rintro ⟨-, -, h3⟩; exact h3 hby)]
    rw [if_neg ?_]
    rintro (h | h | h)
    · exact h husing
    · rw [hby] at h; exact hrid h
    · exact h hby
  unfold get_file
  dsimp only
  rw [if_pos rfl, hcp]
  exact verifyAndFetch_meta meta blocks id rid 0

theorem claimPhase_noop (meta : MetaRegistry) (id rid : String) (ce : CacheEntry MetaInfo)
    (hget : MemDB.get meta id = some ce)
    (husing : ce.value.is_using = true)
    (hby : ce.value.used_by = rid)
    (hrid : rid ≠ "") :
    claimPhase meta id rid = (none, meta) := by
  unfold claimPhase
  rw [hget]
  dsimp only
  rw [if_neg (by rintro ⟨-, -, h3⟩; exact h3 hby)]
  rw [if_neg ?_]
  rintro (h | h | h)
  · exact h husing
  · rw [hby] at h; exact hrid h
  · exact h hby

theorem upload_file_validated (cfg : Config) (meta : MetaRegistry) (blocks : BlockRegistry)
    (id filename : String) (bytes : List Nat) (s e t now : Nat) (ce : CacheEntry MetaInfo)
    (hget : MemDB.get meta id = some ce)
    (hse : s ≤ e) (ht0 : 0 < t) (hst : s < t)
    (htot : t ≤ cfg.max_total_size)
    (hblk : bytes.length ≤ cfg.max_block_size)
    (hlen : bytes.length = e - s + 1) :
    upload_file cfg meta blocks id (mkMultipart filename s e t bytes) now =
      if cfg.max_blocks_per_file ≤
          blockCountLoop (blocks.map (fun p => p.1)) (id ++ ":") cfg.max_blocks_per_file then
        (UpResult.badRequest ("Maximum number of blocks per file reached ("
            ++ toString cfg.max_blocks_per_file ++ ")"), meta, blocks)
      else
        (UpResult.ok, meta,
         MemDB.insert blocks (fmtBlockKey id s) (FileBlock.new bytes filename s e t)
           BLOCK_TTL_SECS now) := by
  unfold upload_file mkMultipart
  rw [hget]
  dsimp only
  rw [if_neg (by decide)]
  rw [if_neg (by decide)]
  rw [if_neg (by omega)]
  rw [if_neg (by omega)]
  rw [if_neg (by decide)]
  rw [if_neg (by decide)]
  rw [if_neg (by omega)]
  rw [if_neg (by omega)]

theorem blockCountGo_eq (pre : String) (cap : Nat) (keys : List String) :
    ∀ c : Nat, c < cap →
      blockCountGo pre cap keys c
        = min (c + keys.countP (fun k => strStartsWith k pre)) cap := by
  induction keys with
  | nil =>
    intro c hc
    simp [blockCountGo]
    omega
  | cons k ks ih =>
    intro c hc
    unfold blockCountGo
    dsimp only
    rw [List.countP_cons]
    by_cases hk : strStartsWith k pre = true
    · rw [if_pos hk, if_pos hk]
      by_cases hcap : cap ≤ c + 1
      · rw [if_pos hcap]
        omega
      · rw [if_neg hcap]
        rw [ih (c + 1) (by omega)]
        omega
    · rw [if_neg hk, if_neg hk]
      rw [if_neg (by omega)]
      rw [ih c hc]
      omega

theorem blockCountLoop_min (keys : List String) (pre : String) (cap : Nat) (hcap : 0 < cap) :
    blockCountLoop keys pre cap = min (keys.countP (fun k => strStartsWith k pre)) cap := by
  unfold blockCountLoop
  rw [blockCountGo_eq pre cap keys 0 hcap]
  simp

/-- C8: once every other validation of `upload_file` has passed, the block
is admitted into the BlockRegistry exactly when the number of keys with the
`"<id>:"` prefix is strictly below `max_blocks_per_file`; otherwise the
request fails with 400 "Maximum number of blocks per file reached" and the
BlockRegistry is unchanged.  The early-exit counting loop never runs the
count past the cap. -/
theorem upload_admission_iff (cfg : Config) (meta : MetaRegistry) (blocks : BlockRegistry)
    (id filename : String) (bytes : List Nat) (s e t now : Nat) (ce : CacheEntry MetaInfo)
    (hcap : 0 < cfg.max_blocks_per_file)
    (hget : MemDB.get meta id = some ce)
    (hse : s ≤ e) (ht0 : 0 < t) (hst : s < t)
    (htot : t ≤ cfg.max_total_size)
    (hblk : bytes.length ≤ cfg.max_block_size)
    (hlen : bytes.length = e - s + 1) :
    blockCountLoop (blocks.map (fun p => p.1)) (id ++ ":") cfg.max_blocks_per_file
        ≤ cfg.max_blocks_per_file ∧
    ((blocks.map (fun p => p.1)).countP (fun k => strStartsWith k (id ++ ":"))
        < cfg.max_blocks_per_file →
      upload_file cfg meta blocks id (mkMultipart filename s e t bytes) now =
        (UpResult.ok, meta,
         MemDB.insert blocks (fmtBlockKey id s) (FileBlock.new bytes filename s e t)
           BLOCK_TTL_SECS now)) ∧
    (cfg.max_blocks_per_file ≤
        (blocks.map (fun p => p.1)).countP (fun k => strStartsWith k (id ++ ":")) →
      upload_file cfg meta blocks id (mkMultipart filename s e t bytes) now =
        (UpResult.badRequest ("Maximum number of blocks per file reached ("
            ++ toString cfg.max_blocks_per_file ++ ")"), meta, blocks)) := by
  have hval := upload_file_validated cfg meta blocks id filename bytes s e t now ce
    hget hse ht0 hst htot hblk hlen
  have hmin := blockCountLoop_min (blocks.map (fun p => p.1)) (id ++ ":")
    cfg.max_blocks_per_file hcap
  refine ⟨by omega, ?_, ?_⟩
  · intro hlt
    rw [hval, if_neg (by omega)]
  · intro hge
    rw [hval, if_pos (by omega)]

/-- C3: a block accepted by `upload_file` under key `(id, s)` is returned
verbatim by a subsequent `download_block` at the same offset by the claiming
receiver: status 206 with the uploaded bytes as the body and the
Content-Range header `bytes s-e/t` built from the same values — both paths
key the block with the identical `fmtBlockKey`. -/
theorem upload_download_roundtrip (cfg : Config) (meta : MetaRegistry) (blocks : BlockRegistry)
    (id rid filename : String) (bytes : List Nat) (s e t now : Nat) (ce : CacheEntry MetaInfo)
    (hget : MemDB.get meta id = some ce)
    (husing : ce.value.is_using = true)
    (hby : ce.value.used_by = rid)
    (hrid : rid ≠ "")
    (hse : s ≤ e) (ht0 : 0 < t) (hst : s < t)
    (htot : t ≤ cfg.max_total_size)
    (hblk : bytes.length ≤ cfg.max_block_size)
    (hlen : bytes.length = e - s + 1)
    (hcnt : (blocks.map (fun p => p.1)).countP (fun k => strStartsWith k (id ++ ":"))
        < cfg.max_blocks_per_file)
    (hcap : 0 < cfg.max_blocks_per_file) :
    (upload_file cfg meta blocks id (mkMultipart filename s e t bytes) now).1 = UpResult.ok ∧
    (get_file (upload_file cfg meta blocks id (mkMultipart filename s e t bytes) now).2.1
        (upload_file cfg meta blocks id (mkMultipart filename s e t bytes) now).2.2
        id (some rid) (some s)).1 =
      DlResult.partialContent filename
        ("bytes " ++ toString s ++ "-" ++ toString e ++ "/" ++ toString t) bytes := by
  have hval := upload_file_validated cfg meta blocks id filename bytes s e t now ce
    hget hse ht0 hst htot hblk hlen
  have hmin := blockCountLoop_min (blocks.map (fun p => p.1)) (id ++ ":")
    cfg.max_blocks_per_file hcap
  rw [hval, if_neg (by omega)]
  refine ⟨rfl, ?_⟩
  have hfetch : (verifyAndFetch meta
      (MemDB.insert blocks (fmtBlockKey id s) (FileBlock.new bytes filename s e t)
        BLOCK_TTL_SECS now) id rid s).1 =
      DlResult.partialContent filename
        ("bytes " ++ toString s ++ "-" ++ toString e ++ "/" ++ toString t) bytes := by
    unfold verifyAndFetch
    rw [hget]
    dsimp only
    rw [if_neg (by rw [hby]; exact fun hh => hh rfl)]
    unfold MemDB.insert
    rw [MemDB.get_setEntry_self]
    dsimp only [FileBlock.new]
    rw [if_neg (by omega)]
  by_cases hs0 : s = 0
  · subst hs0
    unfold get_file
    dsimp only
    rw [if_pos rfl]
    rw [claimPhase_noop meta id rid ce hget husing hby hrid]
    exact hfetch
  · unfold get_file
    dsimp only
    rw [if_neg hs0]
    exact hfetch

theorem upload_file_frame (cfg : Config) (meta : MetaRegistry) (blocks : BlockRegistry)
    (id : String) (mp : MultipartReq) (now : Nat) :
    (upload_file cfg meta blocks id mp now).2.1 = meta ∧
    ((upload_file cfg meta blocks id mp now).1 = UpResult.ok ∨
     (upload_file cfg meta blocks id mp now).2.2 = blocks) := by
  unfold upload_file
  repeat first
  | exact ⟨rfl, Or.inr rfl⟩
  | exact ⟨rfl, Or.inl rfl⟩
  | split

/-- C10: `upload_file` is atomic on error — whenever the handler returns
anything other than the 200 success (missing access ID, malformed
multipart, invalid range, oversize total, oversize block, length mismatch,
block-count limit, read failures), both the MetaRegistry and the
BlockRegistry come back exactly as they were: every validation completes
before the single BlockRegistry insert, and the MetaRegistry is never
written at all. -/
theorem upload_error_leaves_registries (cfg : Config) (meta : MetaRegistry)
    (blocks : BlockRegistry) (id : String) (mp : MultipartReq) (now : Nat)
    (h : (upload_file cfg meta blocks id mp now).1 ≠ UpResult.ok) :
    (upload_file cfg meta blocks id mp now).2.1 = meta ∧
    (upload_file cfg meta blocks id mp now).2.2 = blocks := by
  rcases upload_file_frame cfg meta blocks id mp now with ⟨h1, h2 | h2⟩
  · exact absurd h2 h
  · exact ⟨h1, h2⟩

theorem Rooms.lookup_setRoom_self {S : Type} (rs : Rooms S) (k : String) (r : Room S) :
    Rooms.lookupRoom (Rooms.setRoom rs k r) k = some r := by
  simp [Rooms.lookupRoom, Rooms.setRoom]

theorem Rooms.lookup_filter_ne {S : Type} (rs : Rooms S) (k k' : String) (h : k' ≠ k) :
    Rooms.lookupRoom (rs.filter (fun p => !(p.1 == k))) k' = Rooms.lookupRoom rs k' := by
  induction rs with
  | nil => rfl
  | cons p rest ih =>
    by_cases hp : p.1 = k
    · rw [List.filter_cons_of_neg (by simp [hp])]
      rw [ih]
      have hne : p.1 ≠ k' := by
        rw [hp]
        exact fun hh => h hh.symm
      simp [Rooms.lookupRoom, hne]
    · rw [List.filter_cons_of_pos (by simp [hp])]
      by_cases hk' : p.1 = k'
      · simp [Rooms.lookupRoom, hk']
      · simp [Rooms.lookupRoom, hk', ih]

theorem Rooms.lookup_setRoom_ne {S : Type} (rs : Rooms S) (k k' : String) (r : Room S)
    (h : k' ≠ k) :
    Rooms.lookupRoom (Rooms.setRoom rs k r) k' = Rooms.lookupRoom rs k' := by
  unfold Rooms.setRoom
  have hne : k ≠ k' := fun hh => h hh.symm
  simp only [Rooms.lookupRoom, hne, if_false]
  exact Rooms.lookup_filter_ne rs k k' h

theorem roomsInv_lookup {S : Type} (rs : Rooms S) (k : String) (r : Room S)
    (hinv : roomsInvB rs = true) (h : Rooms.lookupRoom rs k = some r) :
    Room.is_empty r = false := by
  induction rs with
  | nil => simp [Rooms.lookupRoom] at h
  | cons p rest ih =>
    simp only [roomsInvB, List.all_cons, Bool.and_eq_true] at hinv
    unfold Rooms.lookupRoom at h
    by_cases hp : p.1 = k
    · rw [if_pos hp] at h
      have := Option.some.inj h
      subst this
      simpa using hinv.1
    · rw [if_neg hp] at h
      exact ih hinv.2 h

theorem roomsInvB_setRoom {S : Type} (rs : Rooms S) (k : String) (r : Room S)
    (hinv : roomsInvB rs = true) (hr : Room.is_empty r = false) :
    roomsInvB (Rooms.setRoom rs k r) = true := by
  have h2 : (List.filter (fun p => !(p.1 == k)) rs).all
      (fun p => !Room.is_empty p.2) = true :=
    List.all_filter_of_all rs _ _ hinv
  simp [roomsInvB, Rooms.setRoom, List.all_cons, hr, h2]

theorem roomsInvB_removeRoom {S : Type} (rs : Rooms S) (k : String)
    (hinv : roomsInvB rs = true) :
    roomsInvB (Rooms.removeRoom rs k) = true :=
  List.all_filter_of_all rs _ _ hinv

/-- C9: the signaling room registry keeps at most one sender and one
receiver per room — a `Room` holds exactly one optional slot per role and
`register_peer` refuses a join into an occupied slot, returning false and
leaving every room exactly as looked up before — and both `register_peer`
and `unregister_peer` preserve the invariant that every room present in the
registry has at least one occupied slot (`unregister_peer` deletes a room
that becomes empty rather than keeping it). -/
theorem signaling_room_invariants {S : Type} :
    (∀ (rs : Rooms S) (room_id : String) (role : Role) (peer_id : Nat) (tx : S),
       roomsInvB rs = true →
       roomsInvB (register_peer rs room_id role peer_id tx).2 = true) ∧
    (∀ (rs : Rooms S) (room_id : String) (role : Role) (peer_id : Nat),
       roomsInvB rs = true →
       roomsInvB (unregister_peer rs room_id role peer_id) = true) ∧
    (∀ (rs : Rooms S) (room_id : String) (room : Room S) (peer_id : Nat) (tx : S),
       Rooms.lookupRoom rs room_id = some room → room.sender.isSome = true →
       (register_peer rs room_id Role.sender peer_id tx).1 = false ∧
       ∀ k, Rooms.lookupRoom (register_peer rs room_id Role.sender peer_id tx).2 k
          = Rooms.lookupRoom rs k) ∧
    (∀ (rs : Rooms S) (room_id : String) (room : Room S) (peer_id : Nat) (tx : S),
       Rooms.lookupRoom rs room_id = some room → room.receiver.isSome = true →
       (register_peer rs room_id Role.receiver peer_id tx).1 = false ∧
       ∀ k, Rooms.lookupRoom (register_peer rs room_id Role.receiver peer_id tx).2 k
          = Rooms.lookupRoom rs k) := by
  refine ⟨?_, ?_, ?_, ?_⟩
  · intro rs room_id role peer_id tx hinv
    unfold register_peer
    cases role with
    | sender =>
      dsimp only
      by_cases hocc : ((Rooms.lookupRoom rs room_id).getD
          { sender := none, receiver := none }).sender.isSome = true
      · rw [if_pos hocc]
        cases hl : Rooms.lookupRoom rs room_id with
        | none => rw [hl] at hocc; simp at hocc
        | some r0 =>
          simp only [Option.getD_some] at hocc ⊢
          exact roomsInvB_setRoom rs room_id r0 hinv (roomsInv_lookup rs room_id r0 hinv hl)
      · rw [if_neg hocc]
        apply roomsInvB_setRoom rs room_id _ hinv
        simp [Room.is_empty]
    | receiver =>
      dsimp only
      by_cases hocc : ((Rooms.lookupRoom rs room_id).getD
          { sender := none, receiver := none }).receiver.isSome = true
      · rw [if_pos hocc]
        cases hl : Rooms.lookupRoom rs room_id with
        | none => rw [hl] at hocc; simp at hocc
        | some r0 =>
          simp only [Option.getD_some] at hocc ⊢
          exact roomsInvB_setRoom rs room_id r0 hinv (roomsInv_lookup rs room_id r0 hinv hl)
      · rw [if_neg hocc]
        apply roomsInvB_setRoom rs room_id _ hinv
        simp [Room.is_empty]
  · intro rs room_id role peer_id hinv
    unfold unregister_peer
    cases hl : Rooms.lookupRoom rs room_id with
    | none => exact hinv
    | some room =>
      dsimp only
      cases role with
      | sender =>
        dsimp only
        by_cases hid : room.sender.map (fun p => p.id) = some peer_id
        · rw [if_pos hid]
          by_cases hemp : Room.is_empty { room with sender := none } = true
          · rw [if_pos hemp]
            exact roomsInvB_removeRoom rs room_id hinv
          · rw [if_neg hemp]
            exact roomsInvB_setRoom rs room_id _ hinv (by
              cases he : Room.is_empty { room with sender := none } with
              | true => exact absurd he hemp
              | false => rfl)
        · rw [if_neg hid]
          by_cases hemp : Room.is_empty room = true
          · rw [if_pos hemp]
            exact roomsInvB_removeRoom rs room_id hinv
          · rw [if_neg hemp]
            exact roomsInvB_setRoom rs room_id _ hinv (by
              cases he : Room.is_empty room with
              | true => exact absurd he hemp
              | false => rfl)
      | receiver =>
        dsimp only
        by_cases hid : room.receiver.map (fun p => p.id) = some peer_id
        · rw [if_pos hid]
          by_cases hemp : Room.is_empty { room with receiver := none } = true
          · rw [if_pos hemp]
            exact roomsInvB_removeRoom rs room_id hinv
          · rw [if_neg hemp]
            exact roomsInvB_setRoom rs room_id _ hinv (by
              cases he : Room.is_empty { room with receiver := none } with
              | true => exact absurd he hemp
              | false => rfl)
        · rw [if_neg hid]
          by_cases hemp : Room.is_empty room = true
          · rw [if_pos hemp]
            exact roomsInvB_removeRoom rs room_id hinv
          · rw [if_neg hemp]
            exact roomsInvB_setRoom rs room_id _ hinv (by
              cases he : Room.is_empty room with
              | true => exact absurd he hemp
              | false => rfl)
  · intro rs room_id room peer_id tx hl hocc
    unfold register_peer
    rw [hl]
    simp only [Option.getD_some]
    rw [if_pos hocc]
    refine ⟨rfl, ?_⟩
    intro k
    by_cases hk : k = room_id
    · subst hk
      rw [Rooms.lookup_setRoom_self, hl]
    · rw [Rooms.lookup_setRoom_ne _ _ _ _ hk]
  · intro rs room_id room peer_id tx hl hocc
    unfold register_peer
    rw [hl]
    simp only [Option.getD_some]
    rw [if_pos hocc]
    refine ⟨rfl, ?_⟩
    intro k
    by_cases hk : k = room_id
    · subst hk
      rw [Rooms.lookup_setRoom_self, hl]
    · rw [Rooms.lookup_setRoom_ne _ _ _ _ hk]

/-- Sample claimed metadata entry used to exercise the theorems. -/
def ceW : CacheEntry MetaInfo :=
  { value := { is_using := true, used_by := "r1", block_size := 1024 * 1024,
               file_name := "a.bin", file_size := 10, done := false }, exp := 100 }

/-- Sample MetaRegistry with one claimed transfer. -/
def metaW : MetaRegistry := [("abcde", ceW)]

/-- Sample completed metadata entry. -/
def ceDoneW : CacheEntry MetaInfo :=
  { value := { is_using := true, used_by := "r1", block_size := 1024 * 1024,
               file_name := "a.bin", file_size := 10, done := true }, exp := 100 }

/-- Sample MetaRegistry with one completed transfer. -/
def metaDoneW : MetaRegistry := [("abcde", ceDoneW)]

/-- Sample signaling room with an occupied sender slot. -/
def roomW : Room Nat := { sender := some { id := 1, tx := 0 }, receiver := none }

/-- Sample rooms registry. -/
def rsW : Rooms Nat := [("abcde", roomW)]

/-- Witness for C2 (amended): the claim path with the non-empty rid "r1"
keeps the claim-state invariant on a concrete registry. -/
theorem meta_claim_invariant_preserved_witness :
    metaInvB metaW = true ∧ ("r1" : String) ≠ "" ∧
    metaInvB (get_file metaW [] "abcde" (some "r1") (some 0)).2.1 = true :=
  ⟨by decide, by decide,
   (meta_claim_invariant_preserved metaW (by decide)).1 [] "abcde" "r1" (some 0) (by decide)⟩

/-- Witness for C3: uploading bytes [48, 49] as block 0-1 of 10 and
downloading offset 0 as receiver "r1" returns those bytes with range
`bytes 0-1/10`. -/
theorem upload_download_roundtrip_witness :
    MemDB.get metaW "abcde" = some ceW ∧
    ((upload_file defaultConfig metaW [] "abcde" (mkMultipart "a.bin" 0 1 10 [48, 49]) 0).1
        = UpResult.ok ∧
     (get_file (upload_file defaultConfig metaW [] "abcde"
          (mkMultipart "a.bin" 0 1 10 [48, 49]) 0).2.1
        (upload_file defaultConfig metaW [] "abcde"
          (mkMultipart "a.bin" 0 1 10 [48, 49]) 0).2.2
        "abcde" (some "r1") (some 0)).1 =
      DlResult.partialContent "a.bin"
        ("bytes " ++ toString (0 : Nat) ++ "-" ++ toString (1 : Nat) ++ "/"
          ++ toString (10 : Nat)) [48, 49]) :=
  ⟨by decide,
   upload_download_roundtrip defaultConfig metaW [] "abcde" "r1" "a.bin" [48, 49] 0 1 10 0 ceW
     (by decide) (by decide) (by decide) (by decide) (by decide) (by decide) (by decide)
     (by decide) (by decide) (by decide) (by decide) (by decide)⟩

/-- Witness for C4: receiver "r2" cannot claim the transfer held by "r1";
the concrete registries come back unchanged. -/
theorem claim_conflict_rejected_witness :
    ("r2" : String) ≠ "r1" ∧
    get_file metaW [] "abcde" (some "r2") (some 0) =
      (DlResult.badRequest "Bad Request", metaW, []) :=
  ⟨by decide,
   claim_conflict_rejected_unchanged metaW [] "abcde" "r2" "r1" ceW
     (by decide) (by decide) (by decide) (by decide) (by decide)⟩

/-- Witness for C5: a repeated claim by the holder "r1" leaves the concrete
MetaRegistry unchanged. -/
theorem claim_idempotent_witness :
    MemDB.get metaW "abcde" = some ceW ∧
    (get_file metaW [] "abcde" (some "r1") (some 0)).2.1 = metaW :=
  ⟨by decide,
   claim_idempotent_same_rid metaW [] "abcde" "r1" ceW (by decide) (by decide) (by decide)
     (by decide)⟩

/-- Witness for C6: a completed transfer keeps `done = true` across a
download claim on a concrete registry. -/
theorem done_flag_monotonic_witness :
    (MemDB.get metaDoneW "abcde").map (fun e => e.value.done) = some true ∧
    (MemDB.get (get_file metaDoneW [] "abcde" (some "r1") (some 0)).2.1 "abcde").map
      (fun e => e.value.done) = some true :=
  ⟨by decide,
   done_flag_monotonic.1 metaDoneW [] "abcde" (some "r1") (some 0) "abcde" (by decide)⟩

/-- Witness for C8: with an empty BlockRegistry the prefix count is below
the cap and the concrete upload is admitted and stored. -/
theorem upload_admission_iff_witness :
    ((([] : BlockRegistry).map (fun p => p.1)).countP
        (fun k => strStartsWith k ("abcde" ++ ":")) < defaultConfig.max_blocks_per_file) ∧
    upload_file defaultConfig metaW [] "abcde" (mkMultipart "a.bin" 0 1 10 [48, 49]) 0 =
      (UpResult.ok, metaW,
       MemDB.insert [] (fmtBlockKey "abcde" 0) (FileBlock.new [48, 49] "a.bin" 0 1 10)
         BLOCK_TTL_SECS 0) :=
  ⟨by decide,
   (upload_admission_iff defaultConfig metaW [] "abcde" "a.bin" [48, 49] 0 1 10 0 ceW
     (by decide) (by decide) (by decide) (by decide) (by decide) (by decide) (by decide)
     (by decide)).2.1 (by decide)⟩

/-- Witness for C9: a second sender joining the occupied concrete room is
refused. -/
theorem signaling_room_invariants_witness :
    roomsInvB rsW = true ∧ roomW.sender.isSome = true ∧
    (register_peer rsW "abcde" Role.sender 2 5).1 = false :=
  ⟨by decide, by decide,
   ((signaling_room_invariants (S := Nat)).2.2.1 rsW "abcde" roomW 2 5 (by decide)
     (by decide)).1⟩

/-- Witness for C10: an upload against a missing access ID errors and leaves
the concrete (empty) registries untouched. -/
theorem upload_error_leaves_registries_witness :
    (upload_file defaultConfig [] [] "abcde" (mkMultipart "a.bin" 0 1 10 [48, 49]) 0).1
        ≠ UpResult.ok ∧
    ((upload_file defaultConfig [] [] "abcde" (mkMultipart "a.bin" 0 1 10 [48, 49]) 0).2.1
        = ([] : MetaRegistry) ∧
     (upload_file defaultConfig [] [] "abcde" (mkMultipart "a.bin" 0 1 10 [48, 49]) 0).2.2
        = ([] : BlockRegistry)) :=
  ⟨by decide,
   upload_error_leaves_registries defaultConfig [] [] "abcde"
     (mkMultipart "a.bin" 0 1 10 [48, 49]) 0 (by decide)⟩
